import Mathlib

/-!
Verification of the Real-Estate ETL pipeline (`dags/real_state_ETL.py`).

The pipeline is linear glue code over pandas DataFrames:
  * `extract_data` reads a CSV into a DataFrame and pushes `df.to_json()`
    to XCom as the handoff payload;
  * `transform_data` pulls the payload (raising `ValueError` when absent),
    rebuilds the DataFrame with `pd.read_json`, drops the column
    `'Residential Type'` when present, drops rows containing nulls,
    inserts a `SaleID` column `1..N` at position 0, and writes the result
    with `df.to_csv(OUTPUT_FILE, index=False)`;
  * `load_to_hdfs` attempts `makedirs` (all errors swallowed and logged),
    then uploads the file (errors re-raised).

We embed DataFrames shallowly as `Dataset`: a list of column names plus a
list of rows, where a cell is `Option Val` (`none` models a pandas null /
NaN).  `Val` carries the two shapes of cell value the pipeline touches:
integers (the inserted `SaleID`) and opaque data values, which we model
as strings.
-/

/-- A cell value: either an integer (as used for `SaleID`) or an opaque
data value, modelled as a string.  A pandas null / NaN cell is modelled
as `none : Option Val`. -/
inductive Val where
  | int : Int → Val
  | str : String → Val
deriving DecidableEq, Repr

/-- A pandas DataFrame, shallowly: a fixed list of column names and an
ordered list of rows, each row a list of optional cell values aligned
positionally with `cols`. -/
structure Dataset where
  cols : List String
  rows : List (List (Option Val))
deriving DecidableEq, Repr

namespace Dataset

/-- Well-formedness: every row has exactly one cell per column. -/
def wf (d : Dataset) : Prop := ∀ r ∈ d.rows, r.length = d.cols.length

instance (d : Dataset) : Decidable d.wf := by
  unfold wf; infer_instance

end Dataset

/-- Remove, from a list of column names, every occurrence of the name `c`
(the column-label part of pandas `df.drop(columns=[c])`). -/
def removeNames (c : String) : List String → List String
  | [] => []
  | n :: ns => if n = c then removeNames c ns else n :: removeNames c ns

/-- Remove from one row the cells positioned under the column name `c`
(the per-row part of pandas `df.drop(columns=[c])`). -/
def removeCells (c : String) : List String → List (Option Val) → List (Option Val)
  | [], _ => []
  | _ :: _, [] => []
  | n :: ns, v :: vs =>
      if n = c then removeCells c ns vs else v :: removeCells c ns vs

/-- pandas `df.drop(columns=[c])`: delete the column labelled `c`
(every occurrence) together with its cells in every row. -/
def dropColumn (c : String) (d : Dataset) : Dataset :=
  ⟨removeNames c d.cols, d.rows.map (removeCells c d.cols)⟩

/-- Lines 54–57 of `transform_data`: drop `'Residential Type'` if it is
among the columns, otherwise leave the DataFrame untouched. -/
def droppedRT (d : Dataset) : Dataset :=
  if "Residential Type" ∈ d.cols then dropColumn "Residential Type" d else d

/-- A row "has a missing value" when some cell is null (pandas NaN). -/
def hasMissing (r : List (Option Val)) : Bool :=
  !(r.all (fun v => v.isSome))

/-- pandas `df.dropna()` with default arguments: keep exactly the rows
with no null cell, preserving their order; columns unchanged. -/
def dropna (d : Dataset) : Dataset :=
  ⟨d.cols, d.rows.filter (fun r => r.all (fun v => v.isSome))⟩

/-- pandas `df.insert(0, 'SaleID', range(1, len(df)+1))`: prepend a
`SaleID` column holding 1..N positionally.  `df.insert` raises
`ValueError` when a column of that name already exists
(`allow_duplicates` defaults to `False`), so the operation is fallible. -/
def insertSaleID (d : Dataset) : Except String Dataset :=
  if "SaleID" ∈ d.cols then
    Except.error "cannot insert SaleID, already exists"
  else
    Except.ok ⟨"SaleID" :: d.cols,
      d.rows.enum.map (fun p => some (Val.int (p.1 + 1)) :: p.2)⟩

/-- The three cleaning steps of `transform_data` (lines 54–65), applied
to the DataFrame decoded from the handoff payload. -/
def transform_core (d : Dataset) : Except String Dataset :=
  insertSaleID (dropna (droppedRT d))

/-!
The handoff payload.  `extract_data` pushes `df.to_json()` (pandas
default `orient='columns'`: a JSON object keyed by column name, each
column an object keyed by row index) and `transform_data` rebuilds the
DataFrame with `pd.read_json`, whose default `convert_axes=True`
restores the integer row index.  We model the payload as a JSON tree in
which the row-index keys are kept as the integers they denote.
-/

/-- A JSON value as used for the XCom handoff: `obj` is the outer object
keyed by column name, `idx` a column object keyed by (integer) row
index. -/
inductive Json where
  | null : Json
  | num : Int → Json
  | str : String → Json
  | obj : List (String × Json) → Json
  | idx : List (Nat × Json) → Json

/-- How one cell serializes: null for NaN, a number or a string
otherwise. -/
def cellJson : Option Val → Json
  | none => Json.null
  | some (Val.int n) => Json.num n
  | some (Val.str s) => Json.str s

/-- How one serialized cell is decoded back by `pd.read_json`:
JSON null becomes NaN; anything that is not a scalar becomes NaN. -/
def decodeCell : Json → Option Val
  | Json.num n => some (Val.int n)
  | Json.str s => some (Val.str s)
  | _ => none

/-- pandas `df.to_json()` (orient `'columns'`): one entry per column, in
column order; each column maps row index `j` to the cell of row `j` in
that column.  (pandas additionally requires the column labels to be
unique; our round-trip theorems carry that hypothesis.) -/
def to_json (d : Dataset) : Json :=
  Json.obj (d.cols.enum.map (fun ic =>
    (ic.2, Json.idx (d.rows.enum.map (fun jr =>
      (jr.1, cellJson (jr.2.getD ic.1 none)))))))

/-- Extraction of one cell while `pd.read_json` rebuilds the rows: look
the row index `j` up in a serialized column; a missing key (or a column
that is not an object) yields NaN. -/
def colEntry (body : Json) (j : Nat) : Option Val :=
  match body with
  | Json.idx es =>
      match es.lookup j with
      | some v => decodeCell v
      | none => none
  | _ => none

/-- pandas `pd.read_json` on an orient-`'columns'` payload: the columns
are the outer keys in order; the row index is taken from the first
column's keys; each row is rebuilt by looking its index up in every
column (a missing key yields NaN).  A payload that is not a JSON object
of objects fails to parse. -/
def read_json : Json → Option Dataset
  | Json.obj [] => some ⟨[], []⟩
  | Json.obj ((c0, Json.idx entries0) :: rest) =>
      some ⟨((c0, Json.idx entries0) :: rest).map Prod.fst,
            (entries0.map Prod.fst).map (fun j =>
              ((c0, Json.idx entries0) :: rest).map (fun cb => colEntry cb.2 j))⟩
  | _ => none

/-- `extract_data` (lines 25–37): reads the input CSV into a DataFrame
`d` and pushes `df.to_json()` to XCom as the handoff payload. -/
def extract_payload (d : Dataset) : Json := to_json d

/-- How one cell is written by `df.to_csv`: a null cell becomes the
empty field, other cells their textual form. -/
def cellCsv : Option Val → String
  | none => ""
  | some (Val.int n) => toString n
  | some (Val.str s) => s

/-- pandas `df.to_csv` as a list of textual records: the header line then
one line per row.  With `index = true` pandas prepends the positional
index (blank header cell); the pipeline calls it with `index = false`. -/
def to_csv (index : Bool) (d : Dataset) : List (List String) :=
  if index then
    ("" :: d.cols) :: d.rows.enum.map (fun jr => toString jr.1 :: jr.2.map cellCsv)
  else
    d.cols :: d.rows.map (fun r => r.map cellCsv)

/-- What a successful `transform_data` run produces: the cleaned
DataFrame pushed to XCom for the loader, and the CSV written to
`OUTPUT_FILE`. -/
structure TransformResult where
  output : Dataset
  csv : List (List String)
deriving DecidableEq, Repr

/-- `transform_data` (lines 40–79).  The payload pulled from XCom is
`none` when the upstream task handed nothing over; the code then raises
`ValueError` before anything is written.  Otherwise the DataFrame is
rebuilt with `pd.read_json`, cleaned by `transform_core`, and written
with `df.to_csv(OUTPUT_FILE, index=False)`. -/
def transform_data (payload : Option Json) : Except String TransformResult :=
  match payload with
  | none => Except.error "No data received from Extract_Data task via XCom"
  | some j =>
    match read_json j with
    | none => Except.error "invalid handoff payload"
    | some df =>
      match transform_core df with
      | Except.error e => Except.error e
      | Except.ok cleaned => Except.ok ⟨cleaned, to_csv false cleaned⟩

/-!  The loader.  `load_to_hdfs` (lines 82–107) is IO against an HDFS
client; we model the environment by whether each external call succeeds,
and record as a trace which calls were attempted. -/

/-- Outcome of the external calls `load_to_hdfs` makes: does
`makedirs` succeed, does the upload (`hdfs_client.write`) succeed, does
the follow-up `status` query succeed. -/
structure HdfsEnv where
  makedirsOk : Bool
  uploadOk : Bool
  statusOk : Bool
deriving DecidableEq, Repr

/-- Trace of a `load_to_hdfs` run: whether the directory got created,
whether a directory-creation error was merely logged, and whether the
upload was attempted at all. -/
structure LoadTrace where
  madeDir : Bool
  dirErrorLogged : Bool
  uploadAttempted : Bool
deriving DecidableEq, Repr

/-- `load_to_hdfs` (lines 82–107): `makedirs` is wrapped in a
`try/except` whose handler only prints, so its failure never escapes and
control always reaches the upload block; inside the second `try`, a
failure of the upload itself (or of the subsequent `status` call) is
printed and re-raised. -/
def load_to_hdfs (env : HdfsEnv) : LoadTrace × Except String String :=
  let dirTrace : Bool × Bool :=
    if env.makedirsOk then (true, false) else (false, true)
  let trace : LoadTrace := ⟨dirTrace.1, dirTrace.2, true⟩
  if env.uploadOk then
    if env.statusOk then
      (trace, Except.ok "Loaded data to HDFS")
    else
      (trace, Except.error "Error uploading to HDFS")
  else
    (trace, Except.error "Error uploading to HDFS")

/-!  Concrete sample data used to instantiate the theorems below: a
three-row extract with a `Residential Type` column, one row missing a
`Town` value, and one row whose only missing value lies in
`Residential Type`. -/

/-- A small concrete input dataset in the shape the extractor produces. -/
def sampleInput : Dataset :=
  ⟨["Town", "Residential Type"],
   [[some (Val.str "Andover"), some (Val.str "Detached")],
    [none, some (Val.str "Condo")],
    [some (Val.str "Ansonia"), none]]⟩

/-- What the transform produces on `sampleInput`: the `Residential Type`
column is gone, the null-`Town` row is gone, the row that was missing
only `Residential Type` is kept, and `SaleID` is 1..2. -/
def sampleOutput : Dataset :=
  ⟨["SaleID", "Town"],
   [[some (Val.int 1), some (Val.str "Andover")],
    [some (Val.int 2), some (Val.str "Ansonia")]]⟩

/-- A one-row, already-clean dataset (no `Residential Type`, no nulls,
no `SaleID`), used for the idempotence analysis. -/
def cleanInput : Dataset :=
  ⟨["Town"], [[some (Val.str "Andover")]]⟩

/-- The transform's output on `cleanInput`. -/
def cleanOutput : Dataset :=
  ⟨["SaleID", "Town"], [[some (Val.int 1), some (Val.str "Andover")]]⟩

/-- A dataset whose only row contains a null, so that null-dropping
leaves zero rows. -/
def allNullInput : Dataset :=
  ⟨["Town"], [[none]]⟩

/-- The full transform result on `sampleInput`: the cleaned dataset and
the CSV records written to the output file. -/
def sampleResult : TransformResult :=
  ⟨sampleOutput,
   [["SaleID", "Town"], ["1", "Andover"], ["2", "Ansonia"]]⟩

/-!  Basic properties of the column-removal helpers. -/

theorem removeNames_of_not_mem {c : String} {ns : List String} (h : c ∉ ns) :
    removeNames c ns = ns := by
  induction ns with
  | nil => rfl
  | cons n ns ih =>
      simp only [List.mem_cons, not_or] at h
      have h1 : n ≠ c := fun hh => h.1 hh.symm
      simp [removeNames, h1, ih h.2]

theorem not_mem_removeNames (c : String) (ns : List String) :
    c ∉ removeNames c ns := by
  induction ns with
  | nil => simp [removeNames]
  | cons n ns ih =>
      by_cases h : n = c
      · simpa [removeNames, h] using ih
      · have h1 : c ≠ n := fun hh => h hh.symm
        simp [removeNames, h, ih, h1]

theorem removeNames_subset (c : String) (ns : List String) :
    removeNames c ns ⊆ ns := by
  induction ns with
  | nil => simp [removeNames]
  | cons n ns ih =>
      by_cases h : n = c
      · simp only [removeNames, if_pos h]
        exact ih.trans (List.subset_cons_self n ns)
      · simp only [removeNames, if_neg h]
        exact List.cons_subset_cons n ih

theorem removeCells_of_not_mem {c : String} :
    ∀ {ns : List String} {vs : List (Option Val)}, c ∉ ns →
      vs.length ≤ ns.length → removeCells c ns vs = vs
  | [], [], _, _ => rfl
  | [], _ :: _, _, hlen => by simp at hlen
  | _ :: _, [], _, _ => rfl
  | n :: ns, v :: vs, h, hlen => by
      simp only [List.mem_cons, not_or] at h
      simp only [List.length_cons, Nat.add_le_add_iff_right] at hlen
      have h1 : n ≠ c := fun hh => h.1 hh.symm
      simp [removeCells, h1, removeCells_of_not_mem h.2 hlen]

/-!  Counting lemma behind the dropped-row report of `transform_data`. -/

theorem length_filter_sub {α : Type} (p : α → Bool) (l : List α) :
    (l.filter p).length = l.length - l.countP (fun x => !(p x)) := by
  induction l with
  | nil => rfl
  | cons x l ih =>
      have hc : l.countP (fun y => !(p y)) ≤ l.length := List.countP_le_length _
      cases h : p x with
      | true =>
          have hf : ((x :: l).filter p).length = (l.filter p).length + 1 := by
            simp [List.filter_cons, h]
          have hcp : List.countP (fun y => !(p y)) (x :: l)
              = l.countP (fun y => !(p y)) := by
            simp [List.countP_cons, h]
          rw [hf, hcp, List.length_cons, ih]
          omega
      | false =>
          have hf : ((x :: l).filter p).length = (l.filter p).length := by
            simp [List.filter_cons, h]
          have hcp : List.countP (fun y => !(p y)) (x :: l)
              = l.countP (fun y => !(p y)) + 1 := by
            simp [List.countP_cons, h]
          rw [hf, hcp, List.length_cons, ih]
          omega

/-!  Lemmas about `List.enum`, used both for the `SaleID` numbering and
for the handoff serialization. -/

theorem enum_map_snd_comp {α β : Type} (l : List α) (f : α → β) :
    l.enum.map (fun p => f p.2) = l.map f := by
  rw [show (fun p : Nat × α => f p.2) = f ∘ Prod.snd from rfl,
    ← List.map_map, List.enum_map_snd]

theorem enum_map_fst_comp {α β : Type} (l : List α) (g : Nat → β) :
    l.enum.map (fun p => g p.1) = (List.range l.length).map g := by
  rw [show (fun p : Nat × α => g p.1) = g ∘ Prod.fst from rfl,
    ← List.map_map, List.enum_map_fst]

theorem enumFrom_map_snd_comp {α β : Type} (s : Nat) (l : List α) (f : α → β) :
    (List.enumFrom s l).map (fun p => f p.2) = l.map f := by
  rw [show (fun p : Nat × α => f p.2) = f ∘ Prod.snd from rfl,
    ← List.map_map, List.enumFrom_map_snd]

theorem getD_range_map {α : Type} (dflt : α) (l : List α) :
    (List.range l.length).map (fun i => l.getD i dflt) = l := by
  induction l with
  | nil => rfl
  | cons x l ih =>
      rw [List.length_cons, List.range_succ_eq_map, List.map_cons,
        List.map_map]
      have htail : (List.range l.length).map
            ((fun i => (x :: l).getD i dflt) ∘ Nat.succ)
          = (List.range l.length).map (fun i => l.getD i dflt) := by
        apply List.map_congr_left
        intro i _
        rfl
      rw [htail, ih]
      rfl

theorem lookup_enumFrom_map {α β : Type} (f : Nat → α → β) :
    ∀ (l : List α) (s j : Nat),
      List.lookup (s + j) ((List.enumFrom s l).map (fun p => (p.1, f p.1 p.2)))
        = (l.get? j).map (f (s + j))
  | [], s, j => by simp [List.enumFrom]
  | x :: l, s, 0 => by simp [List.enumFrom, List.lookup]
  | x :: l, s, j + 1 => by
      have hne : ((s + (j + 1) == s) = false) := by
        simp only [beq_eq_false_iff_ne, ne_eq]
        omega
      have key := lookup_enumFrom_map f l (s + 1) j
      rw [show s + 1 + j = s + (j + 1) from by omega] at key
      simpa [List.enumFrom, List.lookup, hne] using key

theorem decodeCell_cellJson (v : Option Val) : decodeCell (cellJson v) = v := by
  rcases v with _ | (n | s) <;> rfl

theorem colEntry_idx (es : List (Nat × Json)) (j : Nat) :
    colEntry (Json.idx es) j
      = match es.lookup j with
        | some v => decodeCell v
        | none => none := rfl

theorem colEntry_enum (l : List (List (Option Val))) (i j : Nat) :
    colEntry
        (Json.idx (l.enum.map (fun jr => (jr.1, cellJson (jr.2.getD i none))))) j
      = (l.get? j).bind (fun r => r.getD i none) := by
  have hl := lookup_enumFrom_map (fun _ a => cellJson (a.getD i none)) l 0 j
  rw [Nat.zero_add] at hl
  rw [colEntry_idx, show l.enum = List.enumFrom 0 l from rfl, hl]
  cases h : l.get? j with
  | none => rfl
  | some r => simp [decodeCell_cellJson]

/-!  Facts about the individual cleaning steps. -/

theorem dropna_cols (d : Dataset) : (dropna d).cols = d.cols := rfl

theorem droppedRT_rows_length (d : Dataset) :
    (droppedRT d).rows.length = d.rows.length := by
  unfold droppedRT dropColumn
  split <;> simp

theorem not_mem_droppedRT_cols (d : Dataset) :
    "Residential Type" ∉ (droppedRT d).cols := by
  unfold droppedRT
  split
  · exact not_mem_removeNames _ _
  · next h => exact h

theorem droppedRT_of_not_mem {d : Dataset}
    (h : "Residential Type" ∉ d.cols) : droppedRT d = d := by
  unfold droppedRT
  rw [if_neg h]

theorem dropna_of_no_missing {d : Dataset}
    (h : ∀ r ∈ d.rows, hasMissing r = false) : dropna d = d := by
  unfold dropna
  have hf : d.rows.filter (fun r => r.all (fun v => v.isSome)) = d.rows := by
    rw [List.filter_eq_self]
    intro r hr
    have hm := h r hr
    unfold hasMissing at hm
    simpa using hm
  rw [hf]

theorem transform_core_ok {d out : Dataset}
    (h : transform_core d = Except.ok out) :
    "SaleID" ∉ (droppedRT d).cols ∧
      out = ⟨"SaleID" :: (droppedRT d).cols,
        (dropna (droppedRT d)).rows.enum.map
          (fun p => some (Val.int (p.1 + 1)) :: p.2)⟩ := by
  unfold transform_core insertSaleID at h
  by_cases hs : "SaleID" ∈ (dropna (droppedRT d)).cols
  · rw [if_pos hs] at h
    cases h
  · rw [if_neg hs] at h
    refine ⟨hs, ?_⟩
    injection h with h'
    exact h'.symm

/-!  Index-access lemmas used to rebuild rows from the serialized payload. -/

theorem enumFrom_map_snd_id {α : Type} (s : Nat) (l : List α) :
    (List.enumFrom s l).map (fun p => p.2) = l := List.enumFrom_map_snd s l

theorem enum_map_fst_id {α : Type} (l : List α) :
    l.enum.map (fun p => p.1) = List.range l.length := List.enum_map_fst l

theorem get?_eq_some_getD {α : Type} (l : List α) (j : Nat) (dflt : α)
    (h : j < l.length) : l.get? j = some (l.getD j dflt) := by
  rw [List.get?_eq_getElem?, List.getD_eq_getElem?_getD,
    List.getElem?_eq_getElem h]
  rfl

theorem getD_mem_of_lt {α : Type} (l : List α) (j : Nat) (dflt : α)
    (h : j < l.length) : l.getD j dflt ∈ l := by
  have hg : l.getD j dflt = l[j] := by
    rw [List.getD_eq_getElem?_getD, List.getElem?_eq_getElem h]
    rfl
  rw [hg]
  exact List.getElem_mem h

theorem read_json_to_json (d : Dataset) (hwf : d.wf)
    (hne : d.cols = [] → d.rows = []) :
    read_json (to_json d) = some d := by
  obtain ⟨cols, rows⟩ := d
  cases cols with
  | nil =>
      have hr : rows = [] := hne rfl
      subst hr
      rfl
  | cons c cs =>
      have hto : to_json ⟨c :: cs, rows⟩
          = Json.obj ((c, Json.idx (rows.enum.map (fun jr =>
                (jr.1, cellJson (jr.2.getD 0 none)))))
              :: (List.enumFrom 1 cs).map (fun ic =>
                (ic.2, Json.idx (rows.enum.map (fun jr =>
                  (jr.1, cellJson (jr.2.getD ic.1 none))))))) := by
        simp [to_json, List.enum_cons]
      rw [hto]
      simp only [read_json]
      refine congrArg some (congrArg₂ Dataset.mk ?_ ?_)
      · rw [List.map_cons, List.map_map]
        have hsnd : ((List.enumFrom 1 cs).map (Prod.fst ∘ fun ic : Nat × String =>
              (ic.2, Json.idx (rows.enum.map (fun jr =>
                (jr.1, cellJson (jr.2.getD ic.1 none)))))))
            = (List.enumFrom 1 cs).map (fun p => p.2) := rfl
        rw [hsnd, enumFrom_map_snd_id 1 cs]
      · have hidx : (rows.enum.map (fun jr =>
              (jr.1, cellJson (jr.2.getD 0 none)))).map Prod.fst
            = List.range rows.length := by
          rw [List.map_map]
          have : (Prod.fst ∘ fun jr : Nat × List (Option Val) =>
                (jr.1, cellJson (jr.2.getD 0 none)))
              = fun jr : Nat × List (Option Val) => jr.1 := rfl
          rw [this, enum_map_fst_id rows]
        rw [hidx]
        have hrecon : ∀ j ∈ List.range rows.length,
            ((c, Json.idx (rows.enum.map (fun jr =>
                (jr.1, cellJson (jr.2.getD 0 none)))))
              :: (List.enumFrom 1 cs).map (fun ic =>
                (ic.2, Json.idx (rows.enum.map (fun jr =>
                  (jr.1, cellJson (jr.2.getD ic.1 none))))))).map
              (fun cb => colEntry cb.2 j)
            = rows.getD j [] := by
          intro j hj
          rw [List.mem_range] at hj
          have hget : rows.get? j = some (rows.getD j []) :=
            get?_eq_some_getD rows j [] hj
          have hlen : (rows.getD j []).length = (c :: cs).length :=
            hwf (rows.getD j []) (getD_mem_of_lt rows j [] hj)
          rw [List.map_cons, List.map_map]
          have hhead : colEntry (Json.idx (rows.enum.map (fun jr =>
                (jr.1, cellJson (jr.2.getD 0 none))))) j
              = (rows.getD j []).getD 0 none := by
            rw [colEntry_enum, hget]
            rfl
          have htail : ((List.enumFrom 1 cs).map ((fun cb : String × Json =>
                colEntry cb.2 j) ∘ fun ic : Nat × String =>
                  (ic.2, Json.idx (rows.enum.map (fun jr =>
                    (jr.1, cellJson (jr.2.getD ic.1 none)))))))
              = (List.enumFrom 1 cs).map (fun ic =>
                  (rows.getD j []).getD ic.1 none) := by
            apply List.map_congr_left
            intro ic _
            show colEntry (Json.idx (rows.enum.map (fun jr =>
                (jr.1, cellJson (jr.2.getD ic.1 none))))) j
              = (rows.getD j []).getD ic.1 none
            rw [colEntry_enum, hget]
            rfl
          rw [hhead, htail]
          have h2 : (c :: cs).enum.map
                (fun p => (rows.getD j []).getD p.1 none)
              = rows.getD j [] :=
            calc (c :: cs).enum.map (fun p => (rows.getD j []).getD p.1 none)
                = (List.range (c :: cs).length).map
                    (fun i => (rows.getD j []).getD i none) :=
                  enum_map_fst_comp (c :: cs) (fun i => (rows.getD j []).getD i none)
              _ = (List.range (rows.getD j []).length).map
                    (fun i => (rows.getD j []).getD i none) := by rw [hlen]
              _ = rows.getD j [] := getD_range_map none (rows.getD j [])
          rw [List.enum_cons, List.map_cons] at h2
          exact h2
        rw [List.map_congr_left hrecon, getD_range_map]

/-!  The claims about the cleaning pipeline itself. -/

/-- Claim C1: for every valid input dataset, the row count of the
transform's output equals the input row count minus the number of rows
that contain a missing value in a column remaining after
`Residential Type` was dropped; a row whose only missing value lay in
`Residential Type` is not removed (the count is taken over the rows of
`droppedRT d`, whose row count equals the input's). -/
theorem transform_row_count (d out : Dataset)
    (h : transform_core d = Except.ok out) :
    out.rows.length
        = d.rows.length - (droppedRT d).rows.countP hasMissing
      ∧ (droppedRT d).rows.length = d.rows.length := by
  obtain ⟨hs, rfl⟩ := transform_core_ok h
  refine ⟨?_, droppedRT_rows_length d⟩
  show ((dropna (droppedRT d)).rows.enum.map
      (fun p => some (Val.int (p.1 + 1)) :: p.2)).length = _
  rw [List.length_map, List.enum_length]
  show ((droppedRT d).rows.filter (fun r => r.all (fun v => v.isSome))).length = _
  rw [length_filter_sub, droppedRT_rows_length]
  rfl

/-- Witness for claim C1, at `sampleInput`. -/
theorem transform_row_count_witness :
    sampleOutput.rows.length
        = sampleInput.rows.length
          - (droppedRT sampleInput).rows.countP hasMissing
      ∧ (droppedRT sampleInput).rows.length = sampleInput.rows.length :=
  transform_row_count sampleInput sampleOutput (by rfl)

/-- Claim C2: after the transform, the `SaleID` column (position 0 of
every row) holds exactly the integers 1..N in post-filter row order,
with N the number of rows that survived null-dropping — no gaps, no
duplicates, no reordering. -/
theorem transform_saleID_column (d out : Dataset)
    (h : transform_core d = Except.ok out) :
    out.rows.map (fun r => r.getD 0 none)
        = (List.range' 1 out.rows.length).map
            (fun i : Nat => some (Val.int (i : Int)))
      ∧ out.rows.length = (dropna (droppedRT d)).rows.length := by
  obtain ⟨hs, rfl⟩ := transform_core_ok h
  have hN : ((dropna (droppedRT d)).rows.enum.map
        (fun p => some (Val.int (p.1 + 1)) :: p.2)).length
      = (dropna (droppedRT d)).rows.length := by
    rw [List.length_map, List.enum_length]
  refine ⟨?_, hN⟩
  show ((dropna (droppedRT d)).rows.enum.map
      (fun p => some (Val.int (p.1 + 1)) :: p.2)).map (fun r => r.getD 0 none) = _
  rw [List.map_map, hN]
  have h1 : ((fun r : List (Option Val) => r.getD 0 none) ∘
        fun p : Nat × List (Option Val) => some (Val.int (p.1 + 1)) :: p.2)
      = fun p : Nat × List (Option Val) => some (Val.int (p.1 + 1)) := rfl
  rw [h1]
  have h2 : (dropna (droppedRT d)).rows.enum.map
        (fun p => some (Val.int (p.1 + 1)))
      = (List.range (dropna (droppedRT d)).rows.length).map
        (fun j : Nat => some (Val.int (j + 1))) :=
    enum_map_fst_comp (dropna (droppedRT d)).rows
      (fun j : Nat => some (Val.int (j + 1)))
  rw [h2, List.range'_eq_map_range, List.map_map]
  apply List.map_congr_left
  intro j _
  simp only [Function.comp_apply, Option.some.injEq, Val.int.injEq]
  omega

/-- Witness for claim C2, at `sampleInput`. -/
theorem transform_saleID_column_witness :
    sampleOutput.rows.map (fun r => r.getD 0 none)
        = (List.range' 1 sampleOutput.rows.length).map
            (fun i : Nat => some (Val.int (i : Int)))
      ∧ sampleOutput.rows.length = (dropna (droppedRT sampleInput)).rows.length :=
  transform_saleID_column sampleInput sampleOutput (by rfl)

/-- Claim C3: the transform's output never contains the
`Residential Type` column; every other input column keeps its name and
relative order (`removeNames` deletes exactly the `Residential Type`
occurrences and nothing else, and equals the input column list when that
column is absent); `SaleID` is the first output column. -/
theorem transform_column_set (d out : Dataset)
    (h : transform_core d = Except.ok out) :
    out.cols = "SaleID" :: removeNames "Residential Type" d.cols
      ∧ "Residential Type" ∉ out.cols
      ∧ out.cols.head? = some "SaleID" := by
  obtain ⟨hs, rfl⟩ := transform_core_ok h
  refine ⟨?_, ?_, rfl⟩
  · show "SaleID" :: (droppedRT d).cols = _
    congr 1
    unfold droppedRT
    split
    · rfl
    · next hmem => rw [removeNames_of_not_mem hmem]
  · show "Residential Type" ∉ "SaleID" :: (droppedRT d).cols
    simp only [List.mem_cons, not_or]
    exact ⟨by decide, not_mem_droppedRT_cols d⟩

/-- Witness for claim C3, at `sampleInput`. -/
theorem transform_column_set_witness :
    sampleOutput.cols
        = "SaleID" :: removeNames "Residential Type" sampleInput.cols
      ∧ "Residential Type" ∉ sampleOutput.cols
      ∧ sampleOutput.cols.head? = some "SaleID" :=
  transform_column_set sampleInput sampleOutput (by rfl)

/-- Claim C9: the transform never alters a retained cell: stripping the
added `SaleID` cell from every output row yields exactly the rows that
survived null-dropping, which form a subsequence (in original relative
order, values untouched) of the input rows with the `Residential Type`
cell removed. -/
theorem transform_rows_subsequence (d out : Dataset)
    (h : transform_core d = Except.ok out) :
    (out.rows.map (fun r => r.drop 1)).Sublist (droppedRT d).rows := by
  obtain ⟨hs, rfl⟩ := transform_core_ok h
  have hm : ((dropna (droppedRT d)).rows.enum.map
        (fun p => some (Val.int (p.1 + 1)) :: p.2)).map (fun r => r.drop 1)
      = (dropna (droppedRT d)).rows := by
    rw [List.map_map]
    have h1 : ((fun r : List (Option Val) => r.drop 1) ∘
          fun p : Nat × List (Option Val) => some (Val.int (p.1 + 1)) :: p.2)
        = fun p : Nat × List (Option Val) => p.2 := rfl
    rw [h1]
    exact List.enum_map_snd _
  show ((((dropna (droppedRT d)).rows.enum.map
      (fun p => some (Val.int (p.1 + 1)) :: p.2)).map (fun r => r.drop 1))).Sublist
    (droppedRT d).rows
  rw [hm]
  exact List.filter_sublist _

/-- Witness for claim C9, at `sampleInput`. -/
theorem transform_rows_subsequence_witness :
    (sampleOutput.rows.map (fun r => r.drop 1)).Sublist
      (droppedRT sampleInput).rows :=
  transform_rows_subsequence sampleInput sampleOutput (by rfl)

/-- Claim C5, counterexample: on the already-clean one-row dataset
`cleanInput` the transform succeeds, but applying the transform's
cleaning steps to its own output does not reproduce that output with
`SaleID` reassigned — it fails, because `df.insert` raises when a
`SaleID` column already exists. -/
theorem transform_twice_fails :
    transform_core cleanInput = Except.ok cleanOutput
      ∧ transform_core cleanOutput
          = Except.error "cannot insert SaleID, already exists" :=
  ⟨rfl, rfl⟩

/-- Claim C5 (amended): on a dataset with no `Residential Type` column,
no missing values and no pre-existing `SaleID` column, the column-drop
and null-drop steps leave the transform's output unchanged, but
re-running the full transform on that output fails at the `SaleID`
insertion (the column already exists); idempotence holds only after
stripping the `SaleID` column, in which case the transform reproduces
its output exactly. -/
theorem transform_idempotent_amended (d out : Dataset) (hwf : d.wf)
    (hRT : "Residential Type" ∉ d.cols)
    (hnull : ∀ r ∈ d.rows, hasMissing r = false)
    (hSale : "SaleID" ∉ d.cols)
    (h : transform_core d = Except.ok out) :
    dropna (droppedRT out) = out
      ∧ transform_core out
          = Except.error "cannot insert SaleID, already exists"
      ∧ transform_core (dropColumn "SaleID" out) = Except.ok out := by
  obtain ⟨cols, rows⟩ := d
  obtain ⟨hs, hout⟩ := transform_core_ok h
  have hdrop : droppedRT ⟨cols, rows⟩ = ⟨cols, rows⟩ := droppedRT_of_not_mem hRT
  have hdna : dropna ⟨cols, rows⟩ = ⟨cols, rows⟩ := dropna_of_no_missing hnull
  rw [hdrop, hdna] at hout
  subst hout
  have hRTout : droppedRT ⟨"SaleID" :: cols,
        rows.enum.map (fun p => some (Val.int (p.1 + 1)) :: p.2)⟩
      = ⟨"SaleID" :: cols,
        rows.enum.map (fun p => some (Val.int (p.1 + 1)) :: p.2)⟩ := by
    apply droppedRT_of_not_mem
    simp only [List.mem_cons, not_or]
    exact ⟨by decide, hRT⟩
  have hall : ∀ r ∈ rows.enum.map (fun p => some (Val.int (p.1 + 1)) :: p.2),
      (r.all (fun v => v.isSome)) = true := by
    intro r hr
    rw [List.mem_map] at hr
    obtain ⟨p, hp, rfl⟩ := hr
    have hmem := List.snd_mem_of_mem_enum hp
    have ht : p.2.all (fun v => v.isSome) = true := by
      have hn := hnull p.2 hmem
      unfold hasMissing at hn
      simpa using hn
    simp [ht]
  have hdnaOut : dropna ⟨"SaleID" :: cols,
        rows.enum.map (fun p => some (Val.int (p.1 + 1)) :: p.2)⟩
      = ⟨"SaleID" :: cols,
        rows.enum.map (fun p => some (Val.int (p.1 + 1)) :: p.2)⟩ := by
    apply dropna_of_no_missing
    intro r hr
    unfold hasMissing
    simp [hall r hr]
  have hdc : dropColumn "SaleID" ⟨"SaleID" :: cols,
        rows.enum.map (fun p => some (Val.int (p.1 + 1)) :: p.2)⟩
      = ⟨cols, rows⟩ := by
    unfold dropColumn
    refine congrArg₂ Dataset.mk ?_ ?_
    · simp [removeNames, removeNames_of_not_mem hSale]
    · rw [List.map_map]
      have hcells : ∀ p ∈ rows.enum,
          (removeCells "SaleID" ("SaleID" :: cols) ∘
            fun p : Nat × List (Option Val) =>
              some (Val.int (p.1 + 1)) :: p.2) p = p.2 := by
        intro p hp
        show removeCells "SaleID" ("SaleID" :: cols)
          (some (Val.int (p.1 + 1)) :: p.2) = p.2
        have hmem := List.snd_mem_of_mem_enum hp
        have hlen : p.2.length ≤ cols.length := le_of_eq (hwf p.2 hmem)
        simp [removeCells, removeCells_of_not_mem hSale hlen]
      rw [List.map_congr_left hcells]
      exact List.enum_map_snd rows
  refine ⟨by rw [hRTout, hdnaOut], ?_, ?_⟩
  · unfold transform_core
    rw [hRTout, hdnaOut]
    unfold insertSaleID
    rw [if_pos (List.mem_cons_self _ _)]
  · rw [hdc]
    exact h

/-- Witness for the amended claim C5, at `cleanInput`. -/
theorem transform_idempotent_amended_witness :
    dropna (droppedRT cleanOutput) = cleanOutput
      ∧ transform_core cleanOutput
          = Except.error "cannot insert SaleID, already exists"
      ∧ transform_core (dropColumn "SaleID" cleanOutput)
          = Except.ok cleanOutput :=
  transform_idempotent_amended cleanInput cleanOutput (by decide) (by decide)
    (by decide) (by decide) (by rfl)

/-!  The payload-level claims. -/

theorem droppedRT_cols_subset (d : Dataset) :
    (droppedRT d).cols ⊆ d.cols := by
  unfold droppedRT
  split
  · exact removeNames_subset _ _
  · exact List.Subset.refl _

theorem transform_data_some (j : Json) :
    transform_data (some j)
      = match read_json j with
        | none => Except.error "invalid handoff payload"
        | some df =>
          match transform_core df with
          | Except.error e => Except.error e
          | Except.ok cleaned =>
              Except.ok ⟨cleaned, to_csv false cleaned⟩ := rfl

theorem transform_data_parse_fail (j : Json) (hj : read_json j = none) :
    transform_data (some j) = Except.error "invalid handoff payload" := by
  rw [transform_data_some, hj]

theorem transform_data_eq (j : Json) (df : Dataset)
    (hj : read_json j = some df) :
    transform_data (some j)
      = match transform_core df with
        | Except.error e => Except.error e
        | Except.ok cleaned =>
            Except.ok ⟨cleaned, to_csv false cleaned⟩ := by
  rw [transform_data_some, hj]

theorem transform_data_core_fail (j : Json) (df : Dataset) (e : String)
    (hj : read_json j = some df) (hc : transform_core df = Except.error e) :
    transform_data (some j) = Except.error e := by
  rw [transform_data_eq j df hj, hc]

theorem transform_data_ok (j : Json) (df out : Dataset)
    (hj : read_json j = some df) (hc : transform_core df = Except.ok out) :
    transform_data (some j) = Except.ok ⟨out, to_csv false out⟩ := by
  rw [transform_data_eq j df hj, hc]

/-- Claim C6: the dataset the transform consumes equals the dataset the
extractor read — deserializing the handoff payload produced by
`extract_data` recovers every row and column, in order, with every cell
value intact.  The hypotheses reflect what `pd.read_csv` guarantees
about the extracted frame: rows of uniform width, unique column labels
(pandas `to_json` refuses duplicates), and at least one column whenever
there are rows. -/
theorem extract_handoff_roundtrip (d : Dataset) (hwf : d.wf)
    (_hnodup : d.cols.Nodup) (hne : d.cols = [] → d.rows = []) :
    read_json (extract_payload d) = some d :=
  read_json_to_json d hwf hne

/-- Witness for claim C6, at `sampleInput`. -/
theorem extract_handoff_roundtrip_witness :
    read_json (extract_payload sampleInput) = some sampleInput :=
  extract_handoff_roundtrip sampleInput (by decide) (by decide) (by decide)

/-- Claim C4: with no upstream payload `transform_data` fails with the
missing-upstream error before producing any result (so nothing is
written), while a payload carrying a zero-row dataset is accepted and
the stage succeeds — "no data" is distinguished from "empty dataset". -/
theorem transform_requires_payload (d : Dataset) (hrows : d.rows = [])
    (hSale : "SaleID" ∉ d.cols) :
    transform_data none
        = Except.error "No data received from Extract_Data task via XCom"
      ∧ ∃ res, transform_data (some (extract_payload d)) = Except.ok res := by
  refine ⟨rfl, ?_⟩
  have hwf : d.wf := by
    intro r hr
    rw [hrows] at hr
    exact absurd hr (List.not_mem_nil r)
  have hrt : read_json (to_json d) = some d :=
    read_json_to_json d hwf (fun _ => hrows)
  have hempty : (dropna (droppedRT d)).rows = [] := by
    have hdr : (droppedRT d).rows = [] := by
      have hl := droppedRT_rows_length d
      rw [hrows] at hl
      exact List.length_eq_zero.mp hl
    show (droppedRT d).rows.filter (fun r => r.all (fun v => v.isSome)) = []
    rw [hdr]
    rfl
  have hsal2 : "SaleID" ∉ (dropna (droppedRT d)).cols :=
    fun hm => hSale (droppedRT_cols_subset d hm)
  have htc : transform_core d
      = Except.ok ⟨"SaleID" :: (droppedRT d).cols, []⟩ := by
    unfold transform_core insertSaleID
    rw [if_neg hsal2]
    show (Except.ok ⟨"SaleID" :: (dropna (droppedRT d)).cols,
        (dropna (droppedRT d)).rows.enum.map
          (fun p => some (Val.int (p.1 + 1)) :: p.2)⟩ : Except String Dataset)
      = Except.ok ⟨"SaleID" :: (droppedRT d).cols, []⟩
    rw [hempty]
    rfl
  exact ⟨_, transform_data_ok (to_json d) d _ hrt htc⟩

/-- Witness for claim C4, at the zero-row dataset `⟨["Town"], []⟩`. -/
theorem transform_requires_payload_witness :
    transform_data none
        = Except.error "No data received from Extract_Data task via XCom"
      ∧ ∃ res, transform_data (some (extract_payload ⟨["Town"], []⟩))
          = Except.ok res :=
  transform_requires_payload ⟨["Town"], []⟩ (by decide) (by decide)

/-- Claim C8: every successful transform run writes a CSV whose first
record is the column header, whose body records are exactly the cleaned
rows rendered cell by cell (so no raw positional index column is ever
prepended — the code passes `index=False`), and whose first column is
`SaleID`. -/
theorem output_csv_shape (p : Option Json) (res : TransformResult)
    (h : transform_data p = Except.ok res) :
    res.csv.head? = some res.output.cols
      ∧ res.output.cols.head? = some "SaleID"
      ∧ res.csv.tail = res.output.rows.map (fun r => r.map cellCsv) := by
  cases p with
  | none =>
      rw [show transform_data none
          = Except.error "No data received from Extract_Data task via XCom"
        from rfl] at h
      cases h
  | some j =>
      cases hj : read_json j with
      | none =>
          rw [transform_data_parse_fail j hj] at h
          cases h
      | some df =>
          cases hc : transform_core df with
          | error e =>
              rw [transform_data_core_fail j df e hj hc] at h
              cases h
          | ok cleaned =>
              rw [transform_data_ok j df cleaned hj hc] at h
              injection h with h'
              obtain ⟨hs, hcl⟩ := transform_core_ok hc
              subst h'
              refine ⟨rfl, ?_, rfl⟩
              rw [hcl]
              rfl

/-- Witness for claim C8, at `sampleInput`. -/
theorem output_csv_shape_witness :
    sampleResult.csv.head? = some sampleResult.output.cols
      ∧ sampleResult.output.cols.head? = some "SaleID"
      ∧ sampleResult.csv.tail
          = sampleResult.output.rows.map (fun r => r.map cellCsv) :=
  output_csv_shape (some (extract_payload sampleInput)) sampleResult (by rfl)

/-- Claim C10: when null-dropping leaves zero rows (in particular for a
zero-row input), the transform still succeeds — the `SaleID` insertion
over the empty range adds an empty first column, the output dataset has
zero rows, and the written CSV consists of the header only. -/
theorem transform_empty_ok (d : Dataset) (hwf : d.wf)
    (hne : d.cols = [] → d.rows = [])
    (hSale : "SaleID" ∉ d.cols)
    (hempty : (dropna (droppedRT d)).rows = []) :
    ∃ out : Dataset,
      transform_data (some (extract_payload d)) = Except.ok ⟨out, [out.cols]⟩
        ∧ out.rows = [] ∧ out.cols.head? = some "SaleID" := by
  have hrt := read_json_to_json d hwf hne
  have hsal2 : "SaleID" ∉ (dropna (droppedRT d)).cols :=
    fun hm => hSale (droppedRT_cols_subset d hm)
  have htc : transform_core d
      = Except.ok ⟨"SaleID" :: (droppedRT d).cols, []⟩ := by
    unfold transform_core insertSaleID
    rw [if_neg hsal2]
    show (Except.ok ⟨"SaleID" :: (dropna (droppedRT d)).cols,
        (dropna (droppedRT d)).rows.enum.map
          (fun p => some (Val.int (p.1 + 1)) :: p.2)⟩ : Except String Dataset)
      = Except.ok ⟨"SaleID" :: (droppedRT d).cols, []⟩
    rw [hempty]
    rfl
  exact ⟨⟨"SaleID" :: (droppedRT d).cols, []⟩,
    transform_data_ok (to_json d) d _ hrt htc, rfl, rfl⟩

/-- Witness for claim C10, at `allNullInput` (its single row is null, so
null-dropping empties the dataset). -/
theorem transform_empty_ok_witness :
    ∃ out : Dataset,
      transform_data (some (extract_payload allNullInput))
          = Except.ok ⟨out, [out.cols]⟩
        ∧ out.rows = [] ∧ out.cols.head? = some "SaleID" :=
  transform_empty_ok allNullInput (by decide) (by decide) (by decide)
    (by decide)

/-- Claim C7: in `load_to_hdfs` the upload is always attempted (the
`makedirs` exception handler only logs), a failed upload makes the stage
fail with the re-raised error, and the outcome of the stage never
depends on whether directory creation succeeded. -/
theorem load_error_policy (env : HdfsEnv) :
    (load_to_hdfs env).1.uploadAttempted = true
      ∧ (env.uploadOk = false →
          (load_to_hdfs env).2 = Except.error "Error uploading to HDFS")
      ∧ (load_to_hdfs ⟨false, env.uploadOk, env.statusOk⟩).2
          = (load_to_hdfs ⟨true, env.uploadOk, env.statusOk⟩).2 := by
  obtain ⟨m, u, s⟩ := env
  refine ⟨?_, ?_, ?_⟩ <;> cases m <;> cases u <;> cases s <;>
    simp [load_to_hdfs]

/-- Witness for claim C7, in the environment where directory creation
fails and the upload fails. -/
theorem load_error_policy_witness :
    (load_to_hdfs ⟨false, false, true⟩).1.uploadAttempted = true
      ∧ (load_to_hdfs ⟨false, false, true⟩).2
          = Except.error "Error uploading to HDFS" :=
  ⟨(load_error_policy ⟨false, false, true⟩).1,
   (load_error_policy ⟨false, false, true⟩).2.1 rfl⟩
